import Mathlib

/-!
# lazybucket: a fixed-window call limiter

Shallow embedding of `bucket.go`.

* `Bucket.Functions` (a Go `map[uintptr]uint64`) is a partial function
  `Nat → Option Nat`; `none` is an absent key.
* `uint64` values are natural numbers; the one arithmetic operation of the
  source, the `--` of `IsAbleToCall`, is taken modulo `2 ^ 64`.
* Every method body touches the map only between `Locker.Lock()` and
  `Locker.Unlock()`, so each call is one atomic transition of the bucket.
* The goroutines started by `go bucket.doFeed(...)` are kept in the list
  `feeders`; `tick` is one wake-up (one loop iteration) of one of them.
* `fn interface{}` is an `Iface`; `reflect.ValueOf(fn).Pointer()` panics on
  the nil interface and on kinds that carry no pointer.
* `run` executes a sequence of calls and feeder wake-ups from a bucket.
* For calls that run at the same time, `goStep` executes `IsAbleToCall` one
  statement at a time, with the mutex as a flag that only a free `Lock()`
  can take.
* `sleepDuration` is the `int64` value `time.Duration(twindow) * time.Second`.
-/

namespace Lazybucket

/-- Number of values of a Go `uint64`. -/
def UINT64 : Nat := 2 ^ 64

/-- A Go `interface{}` argument, as far as `fn == nil` and
`reflect.ValueOf(fn).Pointer()` can tell values apart. -/
inductive Iface where
  /-- the nil interface value -/
  | nil : Iface
  /-- a value of kind Func, Chan, Map, Pointer, Slice or UnsafePointer, with
  the address `Pointer()` reports for it -/
  | ptr (addr : Nat) : Iface
  /-- a value of any other kind (an int, a struct, ...) -/
  | other : Iface
  deriving DecidableEq, Repr

/-- The call `reflect.ValueOf(fn).Pointer()`: `none` is a panic. -/
def Pointer : Iface → Option Nat
  | Iface.nil => none
  | Iface.ptr addr => some addr
  | Iface.other => none

/-- The arguments a `doFeed` goroutine was started with. -/
structure Feeder where
  fnaddr : Nat
  rate : Nat
  twindow : Nat
  deriving DecidableEq, Repr

/-- The bucket: the `Functions` map, and the `doFeed` goroutines that were
dispatched for it and have not returned yet. -/
structure Bucket where
  Functions : Nat → Option Nat
  feeders : List Feeder

/-- Result of a method call: it returns a value and leaves a bucket, or it
panics. -/
inductive Outcome (α : Type) where
  | ret (val : α) (b : Bucket) : Outcome α
  | panic : Outcome α

/-- Map assignment `m[k] = v`. -/
def mapSet (m : Nat → Option Nat) (k v : Nat) : Nat → Option Nat :=
  fun x => if x = k then some v else m x

/-- Map deletion `delete(m, k)`. -/
def mapDelete (m : Nat → Option Nat) (k : Nat) : Nat → Option Nat :=
  fun x => if x = k then none else m x

def errInvalidFunction : String := "invalid function"
def errInvalidRate : String := "invalid rate"
def errInvalidTimeWindow : String := "invalid time window"
def errAlreadyRegistered : String := "function already registered"
def errNotRegistered : String := "function not registered"

/-- `GetBucket`: an empty map, no goroutine. -/
def GetBucket : Bucket :=
  { Functions := fun _ => none, feeders := [] }

/-- `RegisterFunction`: the returned `Option String` is the error (`none` is
a nil error). On success the map gets `fnaddr ↦ rate` and a feeder is
dispatched. -/
def RegisterFunction (fn : Iface) (rate twindow : Nat) (b : Bucket) :
    Outcome (Option String) :=
  if fn = Iface.nil then
    Outcome.ret (some errInvalidFunction) b
  else if rate = 0 then
    Outcome.ret (some errInvalidRate) b
  else if twindow = 0 then
    Outcome.ret (some errInvalidTimeWindow) b
  else
    match Pointer fn with
    | none => Outcome.panic
    | some fnaddr =>
      match b.Functions fnaddr with
      | some _ => Outcome.ret (some errAlreadyRegistered) b
      | none =>
        Outcome.ret none
          { Functions := mapSet b.Functions fnaddr rate,
            feeders := b.feeders ++ [{ fnaddr := fnaddr, rate := rate, twindow := twindow }] }

/-- One iteration of the `for` loop of `doFeed`, after the sleep: the new map
and whether the goroutine goes on (`true`) or returns (`false`). -/
def doFeed (fnaddr rate : Nat) (m : Nat → Option Nat) : (Nat → Option Nat) × Bool :=
  match m fnaddr with
  | none => (m, false)
  | some _ => (mapSet m fnaddr rate, true)

/-- One wake-up of the `i`-th running feeder; nothing happens when there is
no such feeder. -/
def tick (i : Nat) (b : Bucket) : Bucket :=
  match b.feeders[i]? with
  | none => b
  | some fd =>
    match doFeed fd.fnaddr fd.rate b.Functions with
    | (m, true) => { Functions := m, feeders := b.feeders }
    | (m, false) => { Functions := m, feeders := b.feeders.eraseIdx i }

/-- `UnregisterFunction`: returns nothing. -/
def UnregisterFunction (fn : Iface) (b : Bucket) : Outcome Unit :=
  match Pointer fn with
  | none => Outcome.panic
  | some fnaddr =>
    match b.Functions fnaddr with
    | none => Outcome.ret () b
    | some _ => Outcome.ret () { Functions := mapDelete b.Functions fnaddr, feeders := b.feeders }

/-- `IsAbleToCall`: the boolean and the error (`none` is a nil error). -/
def IsAbleToCall (fn : Iface) (b : Bucket) : Outcome (Bool × Option String) :=
  match Pointer fn with
  | none => Outcome.panic
  | some fnaddr =>
    match b.Functions fnaddr with
    | none => Outcome.ret (false, some errNotRegistered) b
    | some c =>
      if c = 0 then
        Outcome.ret (false, none) b
      else
        Outcome.ret (true, none)
          { Functions := mapSet b.Functions fnaddr ((c + UINT64 - 1) % UINT64),
            feeders := b.feeders }

/-- The results of `n` consecutive `IsAbleToCall fn` calls with nothing in
between, oldest first, and the bucket they leave. -/
def callsInARow (fn : Iface) : Nat → Bucket → Outcome (List (Bool × Option String))
  | 0, b => Outcome.ret [] b
  | n + 1, b =>
    match IsAbleToCall fn b with
    | Outcome.panic => Outcome.panic
    | Outcome.ret r b1 =>
      match callsInARow fn n b1 with
      | Outcome.panic => Outcome.panic
      | Outcome.ret rs b2 => Outcome.ret (r :: rs) b2

/-- The bucket after `n` wake-ups in a row of the `i`-th running feeder. -/
def ticks (i : Nat) : Nat → Bucket → Bucket
  | 0, b => b
  | n + 1, b => ticks i n (tick i b)

/-- One event on the bucket: a call of one of the three methods, or one
wake-up of the `i`-th running feeder. -/
inductive Op where
  | register (fn : Iface) (rate twindow : Nat) : Op
  | unregister (fn : Iface) : Op
  | isAbleToCall (fn : Iface) : Op
  | tick (i : Nat) : Op

/-- The bucket an event leaves; `none` when the call panics. -/
def step (op : Op) (b : Bucket) : Option Bucket :=
  match op with
  | Op.register fn rate twindow =>
    match RegisterFunction fn rate twindow b with
    | Outcome.ret _ b1 => some b1
    | Outcome.panic => none
  | Op.unregister fn =>
    match UnregisterFunction fn b with
    | Outcome.ret _ b1 => some b1
    | Outcome.panic => none
  | Op.isAbleToCall fn =>
    match IsAbleToCall fn b with
    | Outcome.ret _ b1 => some b1
    | Outcome.panic => none
  | Op.tick i => some (tick i b)

/-- The bucket a sequence of events leaves, first event first; `none` when
one of the calls panics. -/
def run : List Op → Bucket → Option Bucket
  | [], b => some b
  | op :: ops, b =>
    match step op b with
    | none => none
    | some b1 => run ops b1

/-- The running feeders that are bound to identity `f`. -/
def feedersOf (f : Nat) (b : Bucket) : List Feeder :=
  b.feeders.filter (fun fd => decide (fd.fnaddr = f))

/-- The identity an event registers: that of `fn` when the event is a
`RegisterFunction(fn, ...)` that returns a nil error on `b`. -/
def registered (op : Op) (b : Bucket) : Option Nat :=
  match op with
  | Op.register fn rate twindow =>
    match RegisterFunction fn rate twindow b with
    | Outcome.ret none _ => Pointer fn
    | _ => none
  | _ => none

/-- Whether, along the events `ops` from bucket `b`, every `RegisterFunction`
of identity `f` that succeeds does so while no feeder bound to `f` is
running. -/
def registersFresh (f : Nat) : List Op → Bucket → Bool
  | [], _ => true
  | op :: ops, b =>
    (decide (registered op b ≠ some f) || (feedersOf f b).isEmpty)
    && (match step op b with
        | none => true
        | some b1 => registersFresh f ops b1)

/-- Whether the event is an `UnregisterFunction` of identity `f`. -/
def unregisters (f : Nat) (op : Op) : Bool :=
  match op with
  | Op.unregister fn => decide (Pointer fn = some f)
  | _ => false

/-- Whether no event of `ops` is an `UnregisterFunction` of identity `f`. -/
def noUnregister (f : Nat) : List Op → Bool
  | [] => true
  | op :: ops => !(unregisters f op) && noUnregister f ops

/-- The constant `time.Second`, in nanoseconds. -/
def Second : Int := 1000000000

/-- Wrap-around of an integer into the range of a Go `int64`
(`time.Duration` is an `int64`). -/
def toInt64 (n : Int) : Int :=
  (n + 9223372036854775808) % 18446744073709551616 - 9223372036854775808

/-- The argument of `time.Sleep` in `doFeed`:
`time.Duration(twindow) * time.Second`, a conversion of the `uint64` to
`int64` followed by an `int64` multiplication. -/
def sleepDuration (twindow : Nat) : Int :=
  toInt64 (toInt64 (twindow : Int) * Second)

/-! ### `IsAbleToCall` statement by statement

For calls that run at the same time, one call is no longer one transition:
each goroutine goes through the statements of `IsAbleToCall` one at a time,
and `Locker.Lock()` can be taken only while the mutex is free. -/

/-- The statement a goroutine inside `IsAbleToCall` executes next. -/
inductive Pc where
  /-- `bucket.Locker.Lock()` -/
  | lock : Pc
  /-- `_, exists = bucket.Functions[fnaddr]` and the test `exists == false` -/
  | lookup : Pc
  /-- `Unlock()` and `return false, errors.New("function not registered")` -/
  | unlockAbsent : Pc
  /-- the test `bucket.Functions[fnaddr] == 0` -/
  | testZero : Pc
  /-- `Unlock()` and `return false, nil` -/
  | unlockZero : Pc
  /-- `bucket.Functions[fnaddr]--` -/
  | decrement : Pc
  /-- `Unlock()` and `return true, nil` -/
  | unlockAdmitted : Pc
  /-- the call has returned `(able, err)` -/
  | done (able : Bool) (err : Option String) : Pc
  deriving DecidableEq

/-- The map, the mutex (`true` is held) and the goroutines that are calling
`IsAbleToCall` on the same function. -/
structure Conc where
  Functions : Nat → Option Nat
  locked : Bool
  threads : List Pc

/-- One statement of `IsAbleToCall` in a goroutine standing at `pc`: the next
program point, the map and the mutex. `none` when the goroutine cannot move:
it waits for the mutex, or its call has returned. -/
def callStep (fnaddr : Nat) (pc : Pc) (m : Nat → Option Nat) (locked : Bool) :
    Option (Pc × (Nat → Option Nat) × Bool) :=
  match pc with
  | Pc.lock => if locked then none else some (Pc.lookup, m, true)
  | Pc.lookup =>
    match m fnaddr with
    | none => some (Pc.unlockAbsent, m, locked)
    | some _ => some (Pc.testZero, m, locked)
  | Pc.unlockAbsent => some (Pc.done false (some errNotRegistered), m, false)
  | Pc.testZero =>
    if (m fnaddr).getD 0 = 0 then some (Pc.unlockZero, m, locked)
    else some (Pc.decrement, m, locked)
  | Pc.unlockZero => some (Pc.done false none, m, false)
  | Pc.decrement =>
    some (Pc.unlockAdmitted,
          mapSet m fnaddr (((m fnaddr).getD 0 + UINT64 - 1) % UINT64), locked)
  | Pc.unlockAdmitted => some (Pc.done true none, m, false)
  | Pc.done _ _ => none

/-- The scheduler lets goroutine `t` execute one statement; nothing happens
when there is no such goroutine or when it cannot move. -/
def goStep (fnaddr : Nat) (t : Nat) (s : Conc) : Conc :=
  match s.threads[t]? with
  | none => s
  | some pc =>
    match callStep fnaddr pc s.Functions s.locked with
    | none => s
    | some (pc1, m1, l1) => { Functions := m1, locked := l1, threads := s.threads.set t pc1 }

/-- A schedule: the goroutines that are given a statement to execute, in
order. -/
def runSchedule (fnaddr : Nat) : List Nat → Conc → Conc
  | [], s => s
  | t :: ts, s => runSchedule fnaddr ts (goStep fnaddr t s)

/-- Sum of a weight over the goroutines. -/
def total (w : Pc → Nat) (l : List Pc) : Nat :=
  (l.map w).sum

/-- Weight 1 for a call that has returned `true`. -/
def trueResult : Pc → Nat
  | Pc.done true _ => 1
  | _ => 0

/-- The number of calls that have returned `true`. -/
def admitted (s : Conc) : Nat :=
  total trueResult s.threads

/-- Weight 1 for a goroutine between `Lock()` and `Unlock()`. -/
def inCritical : Pc → Nat
  | Pc.lock => 0
  | Pc.done _ _ => 0
  | _ => 1

/-- Weight 1 for a goroutine that has executed the decrement. -/
def passed : Pc → Nat
  | Pc.unlockAdmitted => 1
  | Pc.done true _ => 1
  | _ => 0

/-- Weight 1 for a goroutine that is about to execute the decrement. -/
def atDecrement : Pc → Nat
  | Pc.decrement => 1
  | _ => 0

/-- What holds of the goroutines calling `IsAbleToCall` on `f` since the
counter of `f` was `R`: `f` is in the map and its counter plus the number of
decrements made is `R`; at most one goroutine is between `Lock()` and
`Unlock()`, none when the mutex is free; no goroutine is about to decrement a
counter that is zero. -/
def CallsInv (f R : Nat) (s : Conc) : Prop :=
  ∃ c, s.Functions f = some c
    ∧ c + total passed s.threads = R
    ∧ total inCritical s.threads ≤ 1
    ∧ (s.locked = false → total inCritical s.threads = 0)
    ∧ (c = 0 → total atDecrement s.threads = 0)

/-! ## Auxiliary facts -/

theorem mapSet_same (m : Nat → Option Nat) (k v : Nat) : mapSet m k v k = some v := by
  simp [mapSet]

theorem mapSet_other (m : Nat → Option Nat) (k v x : Nat) (h : x ≠ k) :
    mapSet m k v x = m x := by
  simp [mapSet, h]

theorem mapDelete_same (m : Nat → Option Nat) (k : Nat) : mapDelete m k k = none := by
  simp [mapDelete]

theorem uint64_decrement (c : Nat) (h0 : c ≠ 0) (h : c < UINT64) :
    (c + UINT64 - 1) % UINT64 = c - 1 := by
  have e : c + UINT64 - 1 = (c - 1) + UINT64 := by omega
  rw [e, Nat.add_mod_right]
  exact Nat.mod_eq_of_lt (by omega)

/-- A call on a registered function whose counter is zero. -/
theorem isAbleToCall_zero (b : Bucket) (f : Nat) (h : b.Functions f = some 0) :
    IsAbleToCall (Iface.ptr f) b = Outcome.ret (false, none) b := by
  simp [IsAbleToCall, Pointer, h]

/-- A call on a registered function whose counter is not zero. -/
theorem isAbleToCall_pos (b : Bucket) (f c : Nat) (h : b.Functions f = some c)
    (h0 : c ≠ 0) (h64 : c < UINT64) :
    IsAbleToCall (Iface.ptr f) b =
      Outcome.ret (true, none)
        { Functions := mapSet b.Functions f (c - 1), feeders := b.feeders } := by
  simp [IsAbleToCall, Pointer, h, h0, uint64_decrement c h0 h64]

/-- Starting from counter `c`, the next `c` calls are admitted and the one
after them is refused; the counter ends at zero. -/
theorem callsInARow_exhaust (f : Nat) :
    ∀ (c : Nat) (b : Bucket), b.Functions f = some c → c < UINT64 →
      ∃ b2, callsInARow (Iface.ptr f) (c + 1) b
              = Outcome.ret (List.replicate c (true, none) ++ [(false, none)]) b2
            ∧ b2.Functions f = some 0 ∧ b2.feeders = b.feeders := by
  intro c
  induction c with
  | zero =>
    intro b h _
    refine ⟨b, ?_, h, rfl⟩
    simp [callsInARow, isAbleToCall_zero b f h]
  | succ n ih =>
    intro b h h64
    have hn : n < UINT64 := by omega
    obtain ⟨b2, hcalls, hz, hfd⟩ :=
      ih { Functions := mapSet b.Functions f n, feeders := b.feeders }
        (mapSet_same _ _ _) hn
    refine ⟨b2, ?_, hz, hfd⟩
    have hstep := isAbleToCall_pos b f (n + 1) h (Nat.succ_ne_zero n) h64
    simp only [Nat.add_sub_cancel] at hstep
    rw [callsInARow, hstep]
    simp only [hcalls]
    rfl

/-- A wake-up of a feeder whose function is still in the map resets the
counter to the feeder's rate and keeps every feeder. -/
theorem tick_present (b : Bucket) (i : Nat) (fd : Feeder) (c : Nat)
    (hfd : b.feeders[i]? = some fd) (hc : b.Functions fd.fnaddr = some c) :
    tick i b = { Functions := mapSet b.Functions fd.fnaddr fd.rate, feeders := b.feeders } := by
  simp [tick, hfd, doFeed, hc]

/-- After one or more wake-ups in a row of a feeder whose function is in the
map, the counter is the feeder's rate and the feeders are the same. -/
theorem ticks_present (i : Nat) (fd : Feeder) :
    ∀ (n : Nat) (b : Bucket) (c : Nat), b.feeders[i]? = some fd →
      b.Functions fd.fnaddr = some c →
      (ticks i (n + 1) b).Functions fd.fnaddr = some fd.rate
        ∧ (ticks i (n + 1) b).feeders = b.feeders := by
  intro n
  induction n with
  | zero =>
    intro b c hfd hc
    simp [ticks, tick_present b i fd c hfd hc, mapSet_same]
  | succ n ih =>
    intro b c hfd hc
    have ht := tick_present b i fd c hfd hc
    have h1 : (tick i b).feeders[i]? = some fd := by rw [ht]; exact hfd
    have h2 : (tick i b).Functions fd.fnaddr = some fd.rate := by
      rw [ht]; exact mapSet_same _ _ _
    obtain ⟨hv, hf⟩ := ih (tick i b) fd.rate h1 h2
    have hfeed : (tick i b).feeders = b.feeders := by rw [ht]
    exact ⟨by rw [ticks]; exact hv, by rw [ticks, hf, hfeed]⟩

/-- A wake-up of a feeder whose function is no longer in the map leaves the
map alone and ends that feeder. -/
theorem tick_absent (b : Bucket) (i : Nat) (fd : Feeder)
    (hfd : b.feeders[i]? = some fd) (hc : b.Functions fd.fnaddr = none) :
    tick i b = { Functions := b.Functions, feeders := b.feeders.eraseIdx i } := by
  simp [tick, hfd, doFeed, hc]

/-- For windows up to 9223372036 seconds the sleep of `doFeed` is the window
in nanoseconds. -/
theorem sleepDuration_in_range (twindow : Nat) (h : twindow ≤ 9223372036) :
    sleepDuration twindow = (twindow : Int) * 1000000000 := by
  unfold sleepDuration toInt64 Second
  omega

/-- The `uint64` decrement of a non-zero counter does not raise it. -/
theorem uint64_decrement_le (c : Nat) (h0 : c ≠ 0) :
    (c + UINT64 - 1) % UINT64 ≤ c - 1 := by
  have e : c + UINT64 - 1 = (c - 1) + UINT64 := by omega
  rw [e, Nat.add_mod_right]
  exact Nat.mod_le _ _

/-- Every event keeps the property that each identity in the map has a
running feeder bound to it whose rate is at least the counter. -/
theorem step_keeps_feeder (op : Op) (b b1 : Bucket)
    (hinv : ∀ f c, b.Functions f = some c →
      ∃ fd, fd ∈ b.feeders ∧ fd.fnaddr = f ∧ c ≤ fd.rate)
    (hstep : step op b = some b1) :
    ∀ f c, b1.Functions f = some c →
      ∃ fd, fd ∈ b1.feeders ∧ fd.fnaddr = f ∧ c ≤ fd.rate := by
  cases op with
  | register fn rate twindow =>
    simp only [step, RegisterFunction] at hstep
    split at hstep
    · cases hstep
      rename_i hreg
      split at hreg
      · cases hreg; exact hinv
      · split at hreg
        · cases hreg; exact hinv
        · split at hreg
          · cases hreg; exact hinv
          · split at hreg
            · cases hreg
            · rename_i a ha
              split at hreg
              · cases hreg; exact hinv
              · cases hreg
                intro f c hf
                by_cases hfa : f = a
                · have hc : c = rate := by
                    simp only [hfa, mapSet_same, Option.some.injEq] at hf
                    exact hf.symm
                  exact ⟨{ fnaddr := a, rate := rate, twindow := twindow },
                    by simp, hfa.symm, by simp [hc]⟩
                · have hold : b.Functions f = some c := by
                    simpa [mapSet, hfa] using hf
                  obtain ⟨fd, hmem, hfd, hle⟩ := hinv f c hold
                  exact ⟨fd, List.mem_append_left _ hmem, hfd, hle⟩
    · cases hstep
  | unregister fn =>
    simp only [step, UnregisterFunction] at hstep
    split at hstep
    · cases hstep
      rename_i hun
      split at hun
      · cases hun
      · rename_i a ha
        split at hun
        · cases hun; exact hinv
        · cases hun
          intro f c hf
          by_cases hfa : f = a
          · simp [mapDelete, hfa] at hf
          · have hold : b.Functions f = some c := by
              simpa [mapDelete, hfa] using hf
            exact hinv f c hold
    · cases hstep
  | isAbleToCall fn =>
    simp only [step, IsAbleToCall] at hstep
    split at hstep
    · cases hstep
      rename_i hcall
      split at hcall
      · cases hcall
      · rename_i a ha
        split at hcall
        · cases hcall; exact hinv
        · rename_i c0 hc0
          split at hcall
          · cases hcall; exact hinv
          · rename_i hne
            cases hcall
            intro f c hf
            by_cases hfa : f = a
            · have hc : c = (c0 + UINT64 - 1) % UINT64 := by
                simp only [hfa, mapSet_same, Option.some.injEq] at hf
                exact hf.symm
              obtain ⟨fd, hmem, hfd, hle⟩ := hinv a c0 hc0
              have := uint64_decrement_le c0 hne
              exact ⟨fd, hmem, by rw [hfd, hfa], by omega⟩
            · have hold : b.Functions f = some c := by
                simpa [mapSet, hfa] using hf
              exact hinv f c hold
    · cases hstep
  | tick i =>
    simp only [step, Option.some.injEq] at hstep
    subst hstep
    cases hfd : b.feeders[i]? with
    | none =>
      have : tick i b = b := by simp [tick, hfd]
      rw [this]; exact hinv
    | some fd =>
      cases hm : b.Functions fd.fnaddr with
      | none =>
        rw [tick_absent b i fd hfd hm]
        intro f c hf
        obtain ⟨fd1, hmem, hfd1, hle⟩ := hinv f c hf
        obtain ⟨j, hj⟩ := List.mem_iff_getElem?.mp hmem
        have hji : j ≠ i := by
          intro h
          rw [h, hfd] at hj
          cases hj
          rw [hfd1, hf] at hm
          cases hm
        exact ⟨fd1, List.mem_eraseIdx_iff_getElem?.mpr ⟨j, hji, hj⟩, hfd1, hle⟩
      | some c0 =>
        rw [tick_present b i fd c0 hfd hm]
        intro f c hf
        by_cases hfa : f = fd.fnaddr
        · have hc : c = fd.rate := by
            simp only [hfa, mapSet_same, Option.some.injEq] at hf
            exact hf.symm
          exact ⟨fd, List.mem_iff_getElem?.mpr ⟨i, hfd⟩, hfa.symm, by omega⟩
        · have hold : b.Functions f = some c := by
            simpa [mapSet, hfa] using hf
          exact hinv f c hold

/-- In every bucket reached from a fresh one, each identity in the map has a
running feeder bound to it whose rate is at least the counter. -/
theorem run_keeps_feeder (ops : List Op) :
    ∀ (b b1 : Bucket),
      (∀ f c, b.Functions f = some c →
        ∃ fd, fd ∈ b.feeders ∧ fd.fnaddr = f ∧ c ≤ fd.rate) →
      run ops b = some b1 →
      ∀ f c, b1.Functions f = some c →
        ∃ fd, fd ∈ b1.feeders ∧ fd.fnaddr = f ∧ c ≤ fd.rate := by
  induction ops with
  | nil =>
    intro b b1 hinv hrun
    simp only [run, Option.some.injEq] at hrun
    subst hrun
    exact hinv
  | cons op ops ih =>
    intro b b1 hinv hrun
    simp only [run] at hrun
    split at hrun
    · cases hrun
    · rename_i b2 hstep
      exact ih b2 b1 (step_keeps_feeder op b b2 hinv hstep) hrun

/-- From a fresh bucket, after any sequence of events, the counter of a
registered identity is at most the rate of one of the running feeders bound
to it. -/
theorem counter_le_some_feeder_rate (ops : List Op) (b : Bucket) (f c : Nat)
    (hrun : run ops GetBucket = some b) (hf : b.Functions f = some c) :
    ∃ fd, fd ∈ b.feeders ∧ fd.fnaddr = f ∧ c ≤ fd.rate :=
  run_keeps_feeder ops GetBucket b (fun g d hg => by cases hg) hrun f c hf

/-- Replacing the program point of one goroutine moves the total weight by
the difference of the two weights. -/
theorem total_set (w : Pc → Nat) :
    ∀ (l : List Pc) (t : Nat) (pc pc1 : Pc), l[t]? = some pc →
      total w (l.set t pc1) + w pc = total w l + w pc1 := by
  intro l
  induction l with
  | nil =>
    intro t pc pc1 h
    simp at h
  | cons a l ih =>
    intro t pc pc1 h
    cases t with
    | zero =>
      simp only [List.getElem?_cons_zero, Option.some.injEq] at h
      subst h
      simp only [total, List.set_cons_zero, List.map_cons, List.sum_cons]
      omega
    | succ t =>
      simp only [List.getElem?_cons_succ] at h
      have := ih t pc pc1 h
      simp only [total, List.set_cons_succ, List.map_cons, List.sum_cons] at this ⊢
      omega

/-- A pointwise smaller weight has a smaller total. -/
theorem total_le_total (w1 w2 : Pc → Nat) (hw : ∀ pc, w1 pc ≤ w2 pc) (l : List Pc) :
    total w1 l ≤ total w2 l := by
  induction l with
  | nil => simp [total]
  | cons a l ih =>
    have := hw a
    simp only [total, List.map_cons, List.sum_cons] at ih ⊢
    omega

/-- Two weights that agree on every goroutine of the list have the same
total. -/
theorem total_congr (w1 w2 : Pc → Nat) (l : List Pc) (hw : ∀ pc, pc ∈ l → w1 pc = w2 pc) :
    total w1 l = total w2 l := by
  induction l with
  | nil => simp [total]
  | cons a l ih =>
    have h1 := hw a (List.mem_cons_self a l)
    have h2 := ih (fun pc hpc => hw pc (List.mem_cons_of_mem a hpc))
    simp only [total, List.map_cons, List.sum_cons] at h2 ⊢
    omega

/-- Goroutines that all stand before `Lock()` weigh nothing. -/
theorem total_replicate_lock (w : Pc → Nat) (hw : w Pc.lock = 0) (n : Nat) :
    total w (List.replicate n Pc.lock) = 0 := by
  induction n with
  | zero => simp [total]
  | succ n ih =>
    simp only [total, List.replicate_succ, List.map_cons, List.sum_cons] at ih ⊢
    omega

/-- One statement of one goroutine keeps `CallsInv`. -/
theorem goStep_keeps_inv (f R t : Nat) (s : Conc) (hR : R < UINT64)
    (hinv : CallsInv f R s) : CallsInv f R (goStep f t s) := by
  obtain ⟨c, hc, hsum, hcs, hfree, hdec⟩ := hinv
  unfold CallsInv goStep
  cases ht : s.threads[t]? with
  | none => exact ⟨c, hc, hsum, hcs, hfree, hdec⟩
  | some pc =>
    have hP := fun pc1 => total_set passed s.threads t pc pc1 ht
    have hC := fun pc1 => total_set inCritical s.threads t pc pc1 ht
    have hD := fun pc1 => total_set atDecrement s.threads t pc pc1 ht
    have hDC : total atDecrement s.threads ≤ total inCritical s.threads :=
      total_le_total atDecrement inCritical
        (by intro q; cases q <;> simp [atDecrement, inCritical]) s.threads
    cases pc with
    | lock =>
      cases hl : s.locked with
      | true =>
        simp only [callStep, hl, if_true]
        exact ⟨c, hc, hsum, hcs, (by intro h; cases h), hdec⟩
      | false =>
        have h1 := hP Pc.lookup
        have h2 := hC Pc.lookup
        have h3 := hD Pc.lookup
        have h0 := hfree hl
        simp only [passed, inCritical, atDecrement] at h1 h2 h3
        simp only [callStep, hl, Bool.false_eq_true, if_false]
        refine ⟨c, hc, by omega, by omega, (by intro h; cases h), ?_⟩
        intro hc0
        have := hdec hc0
        omega
    | lookup =>
      have h1 := hP Pc.testZero
      have h2 := hC Pc.testZero
      have h3 := hD Pc.testZero
      simp only [passed, inCritical, atDecrement] at h1 h2 h3
      simp only [callStep, hc]
      refine ⟨c, rfl, by omega, by omega, ?_, ?_⟩
      · intro hl
        have := hfree hl
        omega
      · intro hc0
        have := hdec hc0
        omega
    | unlockAbsent =>
      have h1 := hP (Pc.done false (some errNotRegistered))
      have h2 := hC (Pc.done false (some errNotRegistered))
      have h3 := hD (Pc.done false (some errNotRegistered))
      simp only [passed, inCritical, atDecrement] at h1 h2 h3
      simp only [callStep]
      refine ⟨c, hc, by omega, by omega, by intro _; omega, ?_⟩
      intro hc0
      have := hdec hc0
      omega
    | testZero =>
      by_cases hz : c = 0
      · have h1 := hP Pc.unlockZero
        have h2 := hC Pc.unlockZero
        have h3 := hD Pc.unlockZero
        simp only [passed, inCritical, atDecrement] at h1 h2 h3
        simp only [callStep, hc, hz, Option.getD_some, if_true]
        refine ⟨0, rfl, by omega, by omega, ?_, ?_⟩
        · intro hl
          have := hfree hl
          omega
        · intro _
          have := hdec hz
          omega
      · have h1 := hP Pc.decrement
        have h2 := hC Pc.decrement
        have h3 := hD Pc.decrement
        simp only [passed, inCritical, atDecrement] at h1 h2 h3
        simp only [callStep, hc, hz, Option.getD_some, if_false]
        refine ⟨c, rfl, by omega, by omega, ?_, ?_⟩
        · intro hl
          have := hfree hl
          omega
        · intro hc0
          exact absurd hc0 hz
    | unlockZero =>
      have h1 := hP (Pc.done false none)
      have h2 := hC (Pc.done false none)
      have h3 := hD (Pc.done false none)
      simp only [passed, inCritical, atDecrement] at h1 h2 h3
      simp only [callStep]
      refine ⟨c, hc, by omega, by omega, by intro _; omega, ?_⟩
      intro hc0
      have := hdec hc0
      omega
    | decrement =>
      have h1 := hP Pc.unlockAdmitted
      have h2 := hC Pc.unlockAdmitted
      have h3 := hD Pc.unlockAdmitted
      simp only [passed, inCritical, atDecrement] at h1 h2 h3
      have hz : c ≠ 0 := by
        intro hc0
        have := hdec hc0
        omega
      have hlt : c < UINT64 := by omega
      simp only [callStep, hc, Option.getD_some, uint64_decrement c hz hlt]
      refine ⟨c - 1, mapSet_same _ _ _, by omega, by omega, ?_, ?_⟩
      · intro hl
        have := hfree hl
        omega
      · intro _
        omega
    | unlockAdmitted =>
      have h1 := hP (Pc.done true none)
      have h2 := hC (Pc.done true none)
      have h3 := hD (Pc.done true none)
      simp only [passed, inCritical, atDecrement] at h1 h2 h3
      simp only [callStep]
      refine ⟨c, hc, by omega, by omega, by intro _; omega, ?_⟩
      intro hc0
      have := hdec hc0
      omega
    | done able err =>
      simp only [callStep]
      exact ⟨c, hc, hsum, hcs, hfree, hdec⟩

/-- A schedule keeps `CallsInv`. -/
theorem runSchedule_keeps_inv (f R : Nat) (hR : R < UINT64) (sched : List Nat) :
    ∀ s : Conc, CallsInv f R s → CallsInv f R (runSchedule f sched s) := by
  induction sched with
  | nil =>
    intro s h
    exact h
  | cons t ts ih =>
    intro s h
    exact ih (goStep f t s) (goStep_keeps_inv f R t s hR h)

/-- The one-transition `IsAbleToCall` is what a goroutine that runs alone
does in its five statements. -/
theorem solo_call_agrees (f : Nat) (b : Bucket) :
    ∃ able err b1, IsAbleToCall (Iface.ptr f) b = Outcome.ret (able, err) b1
      ∧ runSchedule f [0, 0, 0, 0, 0]
            { Functions := b.Functions, locked := false, threads := [Pc.lock] }
          = { Functions := b1.Functions, locked := false, threads := [Pc.done able err] } := by
  cases hm : b.Functions f with
  | none =>
    refine ⟨false, some errNotRegistered, b, by simp [IsAbleToCall, Pointer, hm], ?_⟩
    simp [runSchedule, goStep, callStep, hm]
  | some c =>
    by_cases hz : c = 0
    · refine ⟨false, none, b, by simp [IsAbleToCall, Pointer, hm, hz], ?_⟩
      simp [runSchedule, goStep, callStep, hm, hz]
    · refine ⟨true, none, _, by simp only [IsAbleToCall, Pointer, hm, hz, if_false]; rfl, ?_⟩
      simp [runSchedule, goStep, callStep, hm, hz]

/-- A `RegisterFunction` that returns a nil error found its identity absent,
stored the rate and dispatched one feeder. -/
theorem register_ok (fn : Iface) (rate twindow : Nat) (b b1 : Bucket)
    (h : RegisterFunction fn rate twindow b = Outcome.ret none b1) :
    ∃ a, Pointer fn = some a ∧ b.Functions a = none
      ∧ b1.Functions = mapSet b.Functions a rate
      ∧ b1.feeders = b.feeders ++ [{ fnaddr := a, rate := rate, twindow := twindow }] := by
  unfold RegisterFunction at h
  split at h
  · cases h
  · split at h
    · cases h
    · split at h
      · cases h
      · split at h
        · cases h
        · rename_i a ha
          split at h
          · cases h
          · rename_i hnone
            cases h
            exact ⟨a, ha, hnone, rfl, rfl⟩

/-- A `RegisterFunction` that returns an error leaves the bucket. -/
theorem register_err (fn : Iface) (rate twindow : Nat) (b b1 : Bucket) (e : String)
    (h : RegisterFunction fn rate twindow b = Outcome.ret (some e) b1) : b1 = b := by
  unfold RegisterFunction at h
  split at h
  · cases h; rfl
  · split at h
    · cases h; rfl
    · split at h
      · cases h; rfl
      · split at h
        · cases h
        · split at h
          · cases h; rfl
          · cases h

/-- An `UnregisterFunction` that returns keeps the feeders and touches only
the key of its identity. -/
theorem unregister_effect (fn : Iface) (b b1 : Bucket) (u : Unit)
    (h : UnregisterFunction fn b = Outcome.ret u b1) :
    ∃ a, Pointer fn = some a ∧ b1.feeders = b.feeders
      ∧ ∀ x, x ≠ a → b1.Functions x = b.Functions x := by
  unfold UnregisterFunction at h
  split at h
  · cases h
  · rename_i a ha
    split at h
    · cases h
      exact ⟨a, ha, rfl, fun _ _ => rfl⟩
    · cases h
      exact ⟨a, ha, rfl, fun x hx => by simp [mapDelete, hx]⟩

/-- An `IsAbleToCall` that returns keeps the feeders and the set of keys. -/
theorem isAbleToCall_effect (fn : Iface) (b b1 : Bucket) (r : Bool × Option String)
    (h : IsAbleToCall fn b = Outcome.ret r b1) :
    b1.feeders = b.feeders ∧ ∀ x, b1.Functions x = none → b.Functions x = none := by
  unfold IsAbleToCall at h
  split at h
  · cases h
  · rename_i a ha
    split at h
    · cases h
      exact ⟨rfl, fun _ hx => hx⟩
    · rename_i c hc
      split at h
      · cases h
        exact ⟨rfl, fun _ hx => hx⟩
      · cases h
        refine ⟨rfl, ?_⟩
        intro x hx
        by_cases hxa : x = a
        · simp [mapSet, hxa] at hx
        · simpa [mapSet, hxa] using hx

/-- A wake-up of a feeder keeps the set of keys, and either keeps the feeders
or ends one of them. -/
theorem tick_effect (i : Nat) (b : Bucket) :
    ((tick i b).feeders = b.feeders ∨ (tick i b).feeders = b.feeders.eraseIdx i)
    ∧ ∀ x, (tick i b).Functions x = none → b.Functions x = none := by
  cases hfd : b.feeders[i]? with
  | none =>
    have : tick i b = b := by simp [tick, hfd]
    rw [this]
    exact ⟨Or.inl rfl, fun _ hx => hx⟩
  | some fd =>
    cases hm : b.Functions fd.fnaddr with
    | none =>
      rw [tick_absent b i fd hfd hm]
      exact ⟨Or.inr rfl, fun _ hx => hx⟩
    | some c =>
      rw [tick_present b i fd c hfd hm]
      refine ⟨Or.inl rfl, ?_⟩
      intro x hx
      by_cases hxa : x = fd.fnaddr
      · simp [mapSet, hxa] at hx
      · simpa [mapSet, hxa] using hx

/-- The feeders bound to `f` after one more feeder was dispatched. -/
theorem feedersOf_append (f : Nat) (b b1 : Bucket) (fd : Feeder)
    (h : b1.feeders = b.feeders ++ [fd]) :
    feedersOf f b1 = feedersOf f b ++ (if fd.fnaddr = f then [fd] else []) := by
  unfold feedersOf
  rw [h, List.filter_append]
  by_cases hfd : fd.fnaddr = f
  · simp [hfd]
  · simp [hfd]

/-- Ending a feeder does not add to the feeders bound to `f`. -/
theorem feedersOf_eraseIdx_le (f i : Nat) (b b1 : Bucket)
    (h : b1.feeders = b.feeders.eraseIdx i) :
    (feedersOf f b1).length ≤ (feedersOf f b).length := by
  unfold feedersOf
  rw [h]
  exact ((List.eraseIdx_sublist b.feeders i).filter _).length_le

/-- The feeders bound to `f` depend on the feeders only. -/
theorem feedersOf_congr (f : Nat) (b b1 : Bucket) (h : b1.feeders = b.feeders) :
    feedersOf f b1 = feedersOf f b := by
  unfold feedersOf
  rw [h]

/-- An event that registers `f` finds `f` absent from the map. -/
theorem registered_absent (f : Nat) (op : Op) (b : Bucket)
    (h : registered op b = some f) : b.Functions f = none := by
  cases op with
  | register fn rate twindow =>
    simp only [registered] at h
    cases hreg : RegisterFunction fn rate twindow b with
    | panic => rw [hreg] at h; cases h
    | ret e b2 =>
      cases e with
      | some err => rw [hreg] at h; cases h
      | none =>
        rw [hreg] at h
        obtain ⟨a, ha, hnone, _, _⟩ := register_ok fn rate twindow b b2 hreg
        simp only at h
        rw [ha] at h
        cases h
        exact hnone
  | unregister fn => cases h
  | isAbleToCall fn => cases h
  | tick i => cases h

/-- An event that does not register `f` while a feeder bound to `f` is
running keeps the number of feeders bound to `f` at one at most. -/
theorem step_keeps_single (f : Nat) (op : Op) (b b1 : Bucket)
    (hstep : step op b = some b1)
    (hfresh : registered op b = some f → feedersOf f b = [])
    (hle : (feedersOf f b).length ≤ 1) : (feedersOf f b1).length ≤ 1 := by
  cases op with
  | register fn rate twindow =>
    simp only [step] at hstep
    simp only [registered] at hfresh
    cases hreg : RegisterFunction fn rate twindow b with
    | panic => rw [hreg] at hstep; cases hstep
    | ret e b2 =>
      rw [hreg] at hstep
      simp only [Option.some.injEq] at hstep
      subst hstep
      cases e with
      | some err =>
        rw [register_err fn rate twindow b b2 err hreg]
        exact hle
      | none =>
        rw [hreg] at hfresh
        simp only at hfresh
        obtain ⟨a, ha, _, _, hfe⟩ := register_ok fn rate twindow b b2 hreg
        rw [feedersOf_append f b b2 _ hfe]
        by_cases haf : a = f
        · have hnil := hfresh (by rw [ha, haf])
          simp [hnil, haf]
        · simp [haf]
          exact hle
  | unregister fn =>
    simp only [step] at hstep
    cases hun : UnregisterFunction fn b with
    | panic => rw [hun] at hstep; cases hstep
    | ret u b2 =>
      rw [hun] at hstep
      simp only [Option.some.injEq] at hstep
      subst hstep
      obtain ⟨a, _, hfe, _⟩ := unregister_effect fn b b2 u hun
      rw [feedersOf_congr f b b2 hfe]
      exact hle
  | isAbleToCall fn =>
    simp only [step] at hstep
    cases hcall : IsAbleToCall fn b with
    | panic => rw [hcall] at hstep; cases hstep
    | ret r b2 =>
      rw [hcall] at hstep
      simp only [Option.some.injEq] at hstep
      subst hstep
      rw [feedersOf_congr f b b2 (isAbleToCall_effect fn b b2 r hcall).1]
      exact hle
  | tick i =>
    simp only [step, Option.some.injEq] at hstep
    subst hstep
    rcases (tick_effect i b).1 with h | h
    · rw [feedersOf_congr f b _ h]
      exact hle
    · exact Nat.le_trans (feedersOf_eraseIdx_le f i b _ h) hle

/-- An event other than an `UnregisterFunction` of `f` keeps the property
that `f`, when absent from the map, has no running feeder. -/
theorem step_keeps_absent (f : Nat) (op : Op) (b b1 : Bucket)
    (hstep : step op b = some b1) (hun : unregisters f op = false)
    (hM : b.Functions f = none → feedersOf f b = []) :
    b1.Functions f = none → feedersOf f b1 = [] := by
  cases op with
  | register fn rate twindow =>
    simp only [step] at hstep
    cases hreg : RegisterFunction fn rate twindow b with
    | panic => rw [hreg] at hstep; cases hstep
    | ret e b2 =>
      rw [hreg] at hstep
      simp only [Option.some.injEq] at hstep
      subst hstep
      cases e with
      | some err =>
        rw [register_err fn rate twindow b b2 err hreg]
        exact hM
      | none =>
        obtain ⟨a, _, _, hF, hfe⟩ := register_ok fn rate twindow b b2 hreg
        intro hf
        rw [hF] at hf
        have haf : a ≠ f := by
          intro h
          rw [h, mapSet_same] at hf
          cases hf
        have hold : b.Functions f = none := by
          rw [mapSet_other _ _ _ _ (Ne.symm haf)] at hf
          exact hf
        rw [feedersOf_append f b b2 _ hfe]
        simp [haf, hM hold]
  | unregister fn =>
    simp only [step] at hstep
    cases hcall : UnregisterFunction fn b with
    | panic => rw [hcall] at hstep; cases hstep
    | ret u b2 =>
      rw [hcall] at hstep
      simp only [Option.some.injEq] at hstep
      subst hstep
      obtain ⟨a, ha, hfe, hkeys⟩ := unregister_effect fn b b2 u hcall
      have haf : f ≠ a := by
        intro h
        simp [unregisters, ha, h] at hun
      intro hf
      rw [hkeys f haf] at hf
      rw [feedersOf_congr f b b2 hfe]
      exact hM hf
  | isAbleToCall fn =>
    simp only [step] at hstep
    cases hcall : IsAbleToCall fn b with
    | panic => rw [hcall] at hstep; cases hstep
    | ret r b2 =>
      rw [hcall] at hstep
      simp only [Option.some.injEq] at hstep
      subst hstep
      obtain ⟨hfe, hkeys⟩ := isAbleToCall_effect fn b b2 r hcall
      intro hf
      rw [feedersOf_congr f b b2 hfe]
      exact hM (hkeys f hf)
  | tick i =>
    simp only [step, Option.some.injEq] at hstep
    subst hstep
    obtain ⟨hfe, hkeys⟩ := tick_effect i b
    intro hf
    have hnil := hM (hkeys f hf)
    rcases hfe with h | h
    · rw [feedersOf_congr f b _ h]
      exact hnil
    · have hlen := feedersOf_eraseIdx_le f i b _ h
      rw [hnil] at hlen
      exact List.length_eq_zero.mp (Nat.le_zero.mp hlen)

/-- In a sequence of events without `UnregisterFunction` of `f`, every
registration of `f` happens while no feeder bound to `f` is running. -/
theorem noUnregister_fresh (f : Nat) (ops : List Op) :
    ∀ b : Bucket, noUnregister f ops = true →
      (b.Functions f = none → feedersOf f b = []) →
      registersFresh f ops b = true := by
  induction ops with
  | nil =>
    intro b _ _
    rfl
  | cons op ops ih =>
    intro b hno hM
    simp only [noUnregister, Bool.and_eq_true, Bool.not_eq_true'] at hno
    obtain ⟨hun, hrest⟩ := hno
    simp only [registersFresh, Bool.and_eq_true, Bool.or_eq_true, decide_eq_true_eq]
    refine ⟨?_, ?_⟩
    · by_cases hr : registered op b = some f
      · right
        rw [hM (registered_absent f op b hr)]
        rfl
      · left
        exact hr
    · cases hs : step op b with
      | none => rfl
      | some b1 => exact ih b1 hrest (step_keeps_absent f op b b1 hs hun hM)

/-- Along a sequence of events in which `f` is never registered while a
feeder bound to `f` is running, at most one feeder is bound to `f`. -/
theorem run_keeps_single (f : Nat) (ops : List Op) :
    ∀ b b1 : Bucket, run ops b = some b1 → registersFresh f ops b = true →
      (feedersOf f b).length ≤ 1 → (feedersOf f b1).length ≤ 1 := by
  induction ops with
  | nil =>
    intro b b1 hrun _ hle
    simp only [run, Option.some.injEq] at hrun
    subst hrun
    exact hle
  | cons op ops ih =>
    intro b b1 hrun hfresh hle
    simp only [registersFresh, Bool.and_eq_true, Bool.or_eq_true, decide_eq_true_eq] at hfresh
    obtain ⟨hhere, hrest⟩ := hfresh
    simp only [run] at hrun
    cases hs : step op b with
    | none => rw [hs] at hrun; cases hrun
    | some b2 =>
      rw [hs] at hrun hrest
      have hfr : registered op b = some f → feedersOf f b = [] := by
        intro hr
        rcases hhere with h | h
        · exact absurd hr h
        · exact List.isEmpty_iff.mp h
      exact ih b2 b1 hrun hrest (step_keeps_single f op b b2 hs hfr hle)

/-- Calls at the same time never return `true` more often than the counter
allows. `N` goroutines call `IsAbleToCall` on one identity `f` whose counter
is `R`, and no reset happens meanwhile. Whatever the order in which the
scheduler lets them execute their statements, and at every moment, at most
`R` calls have returned `true`; the counter plus the number of `true`
results never exceeds `R`, and once every call has returned the two add up
to exactly `R` (no decrement is lost). -/
theorem concurrent_calls_bounded (f R N : Nat) (m : Nat → Option Nat)
    (sched : List Nat) (hm : m f = some R) (hR : R < UINT64) :
    admitted (runSchedule f sched
        { Functions := m, locked := false, threads := List.replicate N Pc.lock }) ≤ R
    ∧ ∃ c, (runSchedule f sched
              { Functions := m, locked := false,
                threads := List.replicate N Pc.lock }).Functions f = some c
        ∧ c + admitted (runSchedule f sched
              { Functions := m, locked := false,
                threads := List.replicate N Pc.lock }) ≤ R
        ∧ ((∀ pc, pc ∈ (runSchedule f sched
                { Functions := m, locked := false,
                  threads := List.replicate N Pc.lock }).threads →
              ∃ able err, pc = Pc.done able err) →
            c + admitted (runSchedule f sched
                { Functions := m, locked := false,
                  threads := List.replicate N Pc.lock }) = R) := by
  have hinit : CallsInv f R
      { Functions := m, locked := false, threads := List.replicate N Pc.lock } :=
    ⟨R, hm, by simp [total_replicate_lock passed rfl N],
      by simp [total_replicate_lock inCritical rfl N],
      fun _ => total_replicate_lock inCritical rfl N,
      fun _ => total_replicate_lock atDecrement rfl N⟩
  obtain ⟨c, hc, hsum, _, _, _⟩ := runSchedule_keeps_inv f R hR sched _ hinit
  have hle : admitted (runSchedule f sched
        { Functions := m, locked := false, threads := List.replicate N Pc.lock })
      ≤ total passed (runSchedule f sched
        { Functions := m, locked := false, threads := List.replicate N Pc.lock }).threads := by
    unfold admitted
    apply total_le_total
    intro pc
    cases pc with
    | done able err => cases able <;> simp [trueResult, passed]
    | _ => simp [trueResult, passed]
  refine ⟨by omega, c, hc, by omega, ?_⟩
  intro hdone
  have heq : admitted (runSchedule f sched
        { Functions := m, locked := false, threads := List.replicate N Pc.lock })
      = total passed (runSchedule f sched
        { Functions := m, locked := false, threads := List.replicate N Pc.lock }).threads := by
    unfold admitted
    apply total_congr
    intro pc hpc
    obtain ⟨able, err, rfl⟩ := hdone pc hpc
    cases able <;> simp [trueResult, passed]
  omega

/-- Three goroutines on a counter of 2, with a schedule in which the
goroutines wait for one another: two calls return `true`, the third returns
`false`, and the counter ends at 0. -/
theorem concurrent_calls_bounded_example :
    (mapSet GetBucket.Functions 7 2 7 = some 2 ∧ 2 < UINT64)
    ∧ (runSchedule 7 [0, 1, 2, 0, 1, 0, 0, 2, 0, 1, 1, 1, 1, 1, 2, 2, 2, 2]
          { Functions := mapSet GetBucket.Functions 7 2, locked := false,
            threads := List.replicate 3 Pc.lock }).threads
        = [Pc.done true none, Pc.done true none, Pc.done false none]
    ∧ (runSchedule 7 [0, 1, 2, 0, 1, 0, 0, 2, 0, 1, 1, 1, 1, 1, 2, 2, 2, 2]
          { Functions := mapSet GetBucket.Functions 7 2, locked := false,
            threads := List.replicate 3 Pc.lock }).Functions 7 = some 0
    ∧ admitted (runSchedule 7 [0, 1, 2, 0, 1, 0, 0, 2, 0, 1, 1, 1, 1, 1, 2, 2, 2, 2]
          { Functions := mapSet GetBucket.Functions 7 2, locked := false,
            threads := List.replicate 3 Pc.lock }) ≤ 2 :=
  ⟨⟨rfl, by decide⟩, rfl, rfl,
   (concurrent_calls_bounded 7 2 3 (mapSet GetBucket.Functions 7 2)
      [0, 1, 2, 0, 1, 0, 0, 2, 0, 1, 1, 1, 1, 1, 2, 2, 2, 2] rfl (by decide)).1⟩

/-! ## The claims -/

/-- C1: for a rate `R > 0`, a window `W > 0` and an identity `f` that is not
in the bucket, `RegisterFunction(f, R, W)` succeeds, and of the `R + 1`
consecutive `IsAbleToCall(f)` calls that follow it (no feeder wake-up, no
other operation in between) the first `R` return `(true, nil)` and the last
one returns `(false, nil)`. -/
theorem C1_register_then_exactly_rate_calls (b : Bucket) (f R W : Nat)
    (hR : 0 < R) (hR64 : R < UINT64) (hW : 0 < W) (hf : b.Functions f = none) :
    ∃ b1 b2, RegisterFunction (Iface.ptr f) R W b = Outcome.ret none b1
      ∧ callsInARow (Iface.ptr f) (R + 1) b1
          = Outcome.ret (List.replicate R (true, none) ++ [(false, none)]) b2 := by
  have hreg : RegisterFunction (Iface.ptr f) R W b = Outcome.ret none
      { Functions := mapSet b.Functions f R,
        feeders := b.feeders ++ [{ fnaddr := f, rate := R, twindow := W }] } := by
    simp [RegisterFunction, Pointer, hf, Nat.pos_iff_ne_zero.mp hR, Nat.pos_iff_ne_zero.mp hW]
  obtain ⟨b2, hcalls, _, _⟩ := callsInARow_exhaust f R
    { Functions := mapSet b.Functions f R,
      feeders := b.feeders ++ [{ fnaddr := f, rate := R, twindow := W }] }
    (mapSet_same _ _ _) hR64
  exact ⟨_, b2, hreg, hcalls⟩

/-- C1 at rate 3, window 1, identity 7 on a fresh bucket. -/
theorem C1_register_then_exactly_rate_calls_witness :
    (0 < 3 ∧ 3 < UINT64 ∧ 0 < 1 ∧ GetBucket.Functions 7 = none) ∧
    ∃ b1 b2, RegisterFunction (Iface.ptr 7) 3 1 GetBucket = Outcome.ret none b1
      ∧ callsInARow (Iface.ptr 7) (3 + 1) b1
          = Outcome.ret (List.replicate 3 (true, none) ++ [(false, none)]) b2 :=
  ⟨⟨by decide, by decide, by decide, rfl⟩,
   C1_register_then_exactly_rate_calls GetBucket 7 3 1 (by decide) (by decide) (by decide) rfl⟩

/-- C2: let `f` be in the map with any counter `c` (zero included) and let
the `i`-th running feeder be the one bound to `(f, R, W)`. After that feeder
has woken up once or more (`n + 1` times) with nothing else in between, of
the next `R + 1` consecutive `IsAbleToCall(f)` calls the first `R` return
`(true, nil)` and the last one returns `(false, nil)`. -/
theorem C2_after_tick_exactly_rate_calls (b : Bucket) (i f R W c n : Nat)
    (hfd : b.feeders[i]? = some { fnaddr := f, rate := R, twindow := W })
    (hc : b.Functions f = some c) (hR64 : R < UINT64) :
    ∃ b2, callsInARow (Iface.ptr f) (R + 1) (ticks i (n + 1) b)
        = Outcome.ret (List.replicate R (true, none) ++ [(false, none)]) b2 := by
  obtain ⟨hv, _⟩ := ticks_present i { fnaddr := f, rate := R, twindow := W } n b c hfd hc
  obtain ⟨b2, hcalls, _, _⟩ := callsInARow_exhaust f R (ticks i (n + 1) b) hv hR64
  exact ⟨b2, hcalls⟩

/-- C2 on the bucket of the test: identity 7 registered with rate 2 and
window 1, both calls used up, then two wake-ups of its feeder. -/
theorem C2_after_tick_exactly_rate_calls_witness :
    (({ Functions := mapSet GetBucket.Functions 7 0,
        feeders := [{ fnaddr := 7, rate := 2, twindow := 1 }] } : Bucket).feeders[0]?
        = some { fnaddr := 7, rate := 2, twindow := 1 }
      ∧ ({ Functions := mapSet GetBucket.Functions 7 0,
           feeders := [{ fnaddr := 7, rate := 2, twindow := 1 }] } : Bucket).Functions 7 = some 0
      ∧ 2 < UINT64) ∧
    ∃ b2, callsInARow (Iface.ptr 7) (2 + 1)
        (ticks 0 (1 + 1) { Functions := mapSet GetBucket.Functions 7 0,
                           feeders := [{ fnaddr := 7, rate := 2, twindow := 1 }] })
        = Outcome.ret (List.replicate 2 (true, none) ++ [(false, none)]) b2 :=
  ⟨⟨rfl, rfl, by decide⟩, C2_after_tick_exactly_rate_calls
    { Functions := mapSet GetBucket.Functions 7 0,
      feeders := [{ fnaddr := 7, rate := 2, twindow := 1 }] }
    0 7 2 1 0 1 rfl rfl (by decide)⟩

/-- C3: on every bucket, `RegisterFunction` with a nil `fn` fails with
"invalid function"; with a non-nil `fn` and rate 0 it fails with "invalid
rate"; with a non-nil `fn`, a rate above 0 and window 0 it fails with
"invalid time window". Each time the bucket left behind is the one the call
started from: the same map (no entry created) and the same feeders (none
dispatched). -/
theorem C3_register_rejects_invalid_arguments (b : Bucket) (fn : Iface) (rate twindow : Nat) :
    RegisterFunction Iface.nil rate twindow b = Outcome.ret (some "invalid function") b
    ∧ (fn ≠ Iface.nil →
        RegisterFunction fn 0 twindow b = Outcome.ret (some "invalid rate") b)
    ∧ (fn ≠ Iface.nil → 0 < rate →
        RegisterFunction fn rate 0 b = Outcome.ret (some "invalid time window") b) := by
  refine ⟨?_, ?_, ?_⟩
  · simp [RegisterFunction, errInvalidFunction]
  · intro hfn
    simp [RegisterFunction, hfn, errInvalidRate]
  · intro hfn hr
    simp [RegisterFunction, hfn, Nat.pos_iff_ne_zero.mp hr, errInvalidTimeWindow]

/-- C3 on the calls of the tests: `(nil, 10, 20)`, `(registered, 0, 20)` and
`(registered, 10, 0)` on a fresh bucket. -/
theorem C3_register_rejects_invalid_arguments_witness :
    (Iface.ptr 7 ≠ Iface.nil ∧ 0 < 10)
    ∧ RegisterFunction Iface.nil 10 20 GetBucket
        = Outcome.ret (some "invalid function") GetBucket
    ∧ RegisterFunction (Iface.ptr 7) 0 20 GetBucket
        = Outcome.ret (some "invalid rate") GetBucket
    ∧ RegisterFunction (Iface.ptr 7) 10 0 GetBucket
        = Outcome.ret (some "invalid time window") GetBucket :=
  ⟨⟨by decide, by decide⟩,
   (C3_register_rejects_invalid_arguments GetBucket (Iface.ptr 7) 10 20).1,
   (C3_register_rejects_invalid_arguments GetBucket (Iface.ptr 7) 10 20).2.1 (by decide),
   (C3_register_rejects_invalid_arguments GetBucket (Iface.ptr 7) 10 20).2.2
     (by decide) (by decide)⟩

/-- C4: when identity `f` is in the map with counter `c`, a call
`RegisterFunction(f, rate', window')` with `rate' > 0` and `window' > 0`
fails with "function already registered" and leaves the bucket it started
from: `f` still has counter `c`, the map is the same map and the feeders are
the same feeders. -/
theorem C4_register_twice_rejected (b : Bucket) (f c rate' window' : Nat)
    (hf : b.Functions f = some c) (hr : 0 < rate') (hw : 0 < window') :
    ∃ b1, RegisterFunction (Iface.ptr f) rate' window' b
            = Outcome.ret (some "function already registered") b1
      ∧ b1.Functions f = some c ∧ b1.Functions = b.Functions ∧ b1.feeders = b.feeders := by
  refine ⟨b, ?_, hf, rfl, rfl⟩
  simp [RegisterFunction, Pointer, hf, Nat.pos_iff_ne_zero.mp hr, Nat.pos_iff_ne_zero.mp hw,
    errAlreadyRegistered]

/-- C4 on the test: identity 7 holds counter 10, then `RegisterFunction(7, 11, 10)`. -/
theorem C4_register_twice_rejected_witness :
    (({ Functions := mapSet GetBucket.Functions 7 10,
        feeders := [{ fnaddr := 7, rate := 10, twindow := 1 }] } : Bucket).Functions 7 = some 10
      ∧ 0 < 11 ∧ 0 < 10)
    ∧ ∃ b1, RegisterFunction (Iface.ptr 7) 11 10
              { Functions := mapSet GetBucket.Functions 7 10,
                feeders := [{ fnaddr := 7, rate := 10, twindow := 1 }] }
            = Outcome.ret (some "function already registered") b1
      ∧ b1.Functions 7 = some 10
      ∧ b1.Functions = mapSet GetBucket.Functions 7 10
      ∧ b1.feeders = [{ fnaddr := 7, rate := 10, twindow := 1 }] :=
  ⟨⟨rfl, by decide, by decide⟩,
   C4_register_twice_rejected
    { Functions := mapSet GetBucket.Functions 7 10,
      feeders := [{ fnaddr := 7, rate := 10, twindow := 1 }] }
    7 10 11 10 rfl (by decide) (by decide)⟩

/-- C5: `RegisterFunction(fn, rate, twindow)` returns a nil error exactly
when `fn` is not nil, `rate > 0`, `twindow > 0` and `fn` has an identity that
is absent from the map. When it returns a nil error, the map afterwards holds
`rate` for that identity and is otherwise as before, and the feeders are the
former ones plus one feeder bound to `(identity, rate, twindow)`. An identity
that was in the map and has been unregistered can be registered again. -/
theorem C5_register_succeeds_iff (b : Bucket) (fn : Iface) (rate twindow : Nat) :
    ((∃ b1, RegisterFunction fn rate twindow b = Outcome.ret none b1)
      ↔ (fn ≠ Iface.nil ∧ 0 < rate ∧ 0 < twindow
          ∧ ∃ a, Pointer fn = some a ∧ b.Functions a = none))
    ∧ (∀ b1, RegisterFunction fn rate twindow b = Outcome.ret none b1 →
        ∃ a, Pointer fn = some a
          ∧ b1.Functions a = some rate
          ∧ (∀ x, x ≠ a → b1.Functions x = b.Functions x)
          ∧ b1.feeders = b.feeders ++ [{ fnaddr := a, rate := rate, twindow := twindow }])
    ∧ (∀ f c b1, b.Functions f = some c → 0 < rate → 0 < twindow →
        UnregisterFunction (Iface.ptr f) b = Outcome.ret () b1 →
        ∃ b2, RegisterFunction (Iface.ptr f) rate twindow b1 = Outcome.ret none b2) := by
  refine ⟨⟨?_, ?_⟩, ?_, ?_⟩
  · rintro ⟨b1, h⟩
    unfold RegisterFunction at h
    split at h
    · cases h
    · split at h
      · cases h
      · split at h
        · cases h
        · rename_i hfn hr hw
          refine ⟨hfn, Nat.pos_of_ne_zero hr, Nat.pos_of_ne_zero hw, ?_⟩
          split at h
          · cases h
          · rename_i a ha
            split at h
            · cases h
            · rename_i hnone
              exact ⟨a, ha, hnone⟩
  · rintro ⟨hfn, hr, hw, a, ha, hnone⟩
    refine ⟨{ Functions := mapSet b.Functions a rate,
              feeders := b.feeders ++ [{ fnaddr := a, rate := rate, twindow := twindow }] }, ?_⟩
    simp only [RegisterFunction, hfn, Nat.pos_iff_ne_zero.mp hr, Nat.pos_iff_ne_zero.mp hw,
      ha, hnone, if_false]
  · intro b1 h
    unfold RegisterFunction at h
    split at h
    · cases h
    · split at h
      · cases h
      · split at h
        · cases h
        · split at h
          · cases h
          · rename_i a ha
            split at h
            · cases h
            · cases h
              exact ⟨a, ha, mapSet_same _ _ _, fun x hx => mapSet_other _ _ _ _ hx, rfl⟩
  · intro f c b1 hf hr hw hun
    have hb1 : b1 = { Functions := mapDelete b.Functions f, feeders := b.feeders } := by
      simp only [UnregisterFunction, Pointer, hf] at hun
      cases hun
      rfl
    refine ⟨{ Functions := mapSet b1.Functions f rate,
              feeders := b1.feeders ++ [{ fnaddr := f, rate := rate, twindow := twindow }] }, ?_⟩
    simp only [RegisterFunction, Pointer, hb1, mapDelete_same, Nat.pos_iff_ne_zero.mp hr,
      Nat.pos_iff_ne_zero.mp hw, if_false, reduceCtorEq]

/-- C5 on the test: `RegisterFunction(fn, 10, 1)` on a fresh bucket returns a
nil error. -/
theorem C5_register_succeeds_iff_witness :
    (Iface.ptr 7 ≠ Iface.nil ∧ 0 < 10 ∧ 0 < 1
      ∧ ∃ a, Pointer (Iface.ptr 7) = some a ∧ GetBucket.Functions a = none)
    ∧ ∃ b1, RegisterFunction (Iface.ptr 7) 10 1 GetBucket = Outcome.ret none b1 :=
  ⟨⟨by decide, by decide, by decide, 7, rfl, rfl⟩,
   (C5_register_succeeds_iff GetBucket (Iface.ptr 7) 10 1).1.mpr
     ⟨by decide, by decide, by decide, 7, rfl, rfl⟩⟩

/-- C6: on every bucket and for every identity `f`, `IsAbleToCall(f)` returns
the error "function not registered" exactly when `f` is absent from the map;
it then returns `false` and leaves the bucket it started from. So it does for
every identity on the bucket of `GetBucket`. -/
theorem C6_call_unregistered (b : Bucket) (f : Nat) :
    ((∃ able b1, IsAbleToCall (Iface.ptr f) b
          = Outcome.ret (able, some "function not registered") b1)
      ↔ b.Functions f = none)
    ∧ (b.Functions f = none →
        IsAbleToCall (Iface.ptr f) b = Outcome.ret (false, some "function not registered") b)
    ∧ IsAbleToCall (Iface.ptr f) GetBucket
        = Outcome.ret (false, some "function not registered") GetBucket := by
  have habsent : ∀ b0 : Bucket, b0.Functions f = none →
      IsAbleToCall (Iface.ptr f) b0
        = Outcome.ret (false, some "function not registered") b0 := by
    intro b0 h0
    simp [IsAbleToCall, Pointer, h0, errNotRegistered]
  refine ⟨⟨?_, ?_⟩, habsent b, habsent GetBucket rfl⟩
  · rintro ⟨able, b1, h⟩
    cases hm : b.Functions f with
    | none => rfl
    | some c =>
      simp only [IsAbleToCall, Pointer, hm] at h
      split at h <;> simp at h
  · intro h
    exact ⟨false, b, habsent b h⟩

/-- C6 on the test: identity 7 on a fresh bucket. -/
theorem C6_call_unregistered_witness :
    GetBucket.Functions 7 = none
    ∧ IsAbleToCall (Iface.ptr 7) GetBucket
        = Outcome.ret (false, some "function not registered") GetBucket :=
  ⟨rfl, (C6_call_unregistered GetBucket 7).2.1 rfl⟩

/-- C7: when identity `f` is in the map with counter 0, `IsAbleToCall(f)`
returns `(false, nil)` and leaves the bucket it started from: the map is the
same, `f` is still there with counter 0 (no decrement below zero, no wrap). -/
theorem C7_call_exhausted (b : Bucket) (f : Nat) (hf : b.Functions f = some 0) :
    ∃ b1, IsAbleToCall (Iface.ptr f) b = Outcome.ret (false, none) b1
      ∧ b1.Functions = b.Functions ∧ b1.Functions f = some 0 := by
  exact ⟨b, isAbleToCall_zero b f hf, rfl, hf⟩

/-- C7 on identity 7 registered with rate 1 after its one call. -/
theorem C7_call_exhausted_witness :
    ({ Functions := mapSet GetBucket.Functions 7 0,
       feeders := [{ fnaddr := 7, rate := 1, twindow := 1 }] } : Bucket).Functions 7 = some 0
    ∧ ∃ b1, IsAbleToCall (Iface.ptr 7)
              { Functions := mapSet GetBucket.Functions 7 0,
                feeders := [{ fnaddr := 7, rate := 1, twindow := 1 }] }
            = Outcome.ret (false, none) b1
      ∧ b1.Functions = mapSet GetBucket.Functions 7 0 ∧ b1.Functions 7 = some 0 :=
  ⟨rfl, C7_call_exhausted
    { Functions := mapSet GetBucket.Functions 7 0,
      feeders := [{ fnaddr := 7, rate := 1, twindow := 1 }] } 7 rfl⟩

/-- C8: when identity `f` is in the map with a counter `c > 0` (a `uint64`),
`IsAbleToCall(f)` returns `(true, nil)` and afterwards `f` is still in the
map, with counter exactly `c - 1`. -/
theorem C8_call_admitted (b : Bucket) (f c : Nat)
    (hf : b.Functions f = some c) (hc : 0 < c) (hc64 : c < UINT64) :
    ∃ b1, IsAbleToCall (Iface.ptr f) b = Outcome.ret (true, none) b1
      ∧ b1.Functions f = some (c - 1) := by
  exact ⟨_, isAbleToCall_pos b f c hf (Nat.pos_iff_ne_zero.mp hc) hc64, mapSet_same _ _ _⟩

/-- C8 on identity 7 holding counter 10. -/
theorem C8_call_admitted_witness :
    (({ Functions := mapSet GetBucket.Functions 7 10,
        feeders := [{ fnaddr := 7, rate := 10, twindow := 1 }] } : Bucket).Functions 7 = some 10
      ∧ 0 < 10 ∧ 10 < UINT64)
    ∧ ∃ b1, IsAbleToCall (Iface.ptr 7)
              { Functions := mapSet GetBucket.Functions 7 10,
                feeders := [{ fnaddr := 7, rate := 10, twindow := 1 }] }
            = Outcome.ret (true, none) b1
      ∧ b1.Functions 7 = some (10 - 1) :=
  ⟨⟨rfl, by decide, by decide⟩,
   C8_call_admitted
    { Functions := mapSet GetBucket.Functions 7 10,
      feeders := [{ fnaddr := 7, rate := 10, twindow := 1 }] }
    7 10 rfl (by decide) (by decide)⟩

/-- C9: when identity `f` is in the map, `UnregisterFunction(f)` returns and
leaves a bucket whose map does not hold `f`, and `IsAbleToCall(f)` right
after it returns `false` with the error "function not registered". -/
theorem C9_unregister_then_call (b : Bucket) (f c : Nat) (hf : b.Functions f = some c) :
    ∃ b1, UnregisterFunction (Iface.ptr f) b = Outcome.ret () b1
      ∧ b1.Functions f = none
      ∧ IsAbleToCall (Iface.ptr f) b1
          = Outcome.ret (false, some "function not registered") b1 := by
  refine ⟨{ Functions := mapDelete b.Functions f, feeders := b.feeders }, ?_,
    mapDelete_same _ _, ?_⟩
  · simp [UnregisterFunction, Pointer, hf]
  · simp [IsAbleToCall, Pointer, mapDelete_same, errNotRegistered]

/-- C9 on the test: identity 7 registered with rate 10, then unregistered. -/
theorem C9_unregister_then_call_witness :
    ({ Functions := mapSet GetBucket.Functions 7 10,
       feeders := [{ fnaddr := 7, rate := 10, twindow := 1 }] } : Bucket).Functions 7 = some 10
    ∧ ∃ b1, UnregisterFunction (Iface.ptr 7)
              { Functions := mapSet GetBucket.Functions 7 10,
                feeders := [{ fnaddr := 7, rate := 10, twindow := 1 }] }
            = Outcome.ret () b1
      ∧ b1.Functions 7 = none
      ∧ IsAbleToCall (Iface.ptr 7) b1
          = Outcome.ret (false, some "function not registered") b1 :=
  ⟨rfl, C9_unregister_then_call
    { Functions := mapSet GetBucket.Functions 7 10,
      feeders := [{ fnaddr := 7, rate := 10, twindow := 1 }] } 7 10 rfl⟩

/-- C10: when identity `f` is absent from the map, `UnregisterFunction(f)`
returns (it has no result, so no error) and leaves the bucket it started
from. Hence, on every bucket, a second `UnregisterFunction(f)` right after a
first one leaves the bucket the first one left. -/
theorem C10_unregister_absent_and_idempotent (b : Bucket) (f : Nat) :
    (b.Functions f = none → UnregisterFunction (Iface.ptr f) b = Outcome.ret () b)
    ∧ ∃ b1, UnregisterFunction (Iface.ptr f) b = Outcome.ret () b1
        ∧ UnregisterFunction (Iface.ptr f) b1 = Outcome.ret () b1 := by
  have habsent : ∀ b0 : Bucket, b0.Functions f = none →
      UnregisterFunction (Iface.ptr f) b0 = Outcome.ret () b0 := by
    intro b0 h0
    simp [UnregisterFunction, Pointer, h0]
  refine ⟨habsent b, ?_⟩
  cases hm : b.Functions f with
  | none => exact ⟨b, habsent b hm, habsent b hm⟩
  | some c =>
    refine ⟨{ Functions := mapDelete b.Functions f, feeders := b.feeders }, ?_, ?_⟩
    · simp [UnregisterFunction, Pointer, hm]
    · exact habsent _ (mapDelete_same _ _)

/-- C10 on identity 7 and a fresh bucket. -/
theorem C10_unregister_absent_and_idempotent_witness :
    GetBucket.Functions 7 = none
    ∧ UnregisterFunction (Iface.ptr 7) GetBucket = Outcome.ret () GetBucket :=
  ⟨rfl, (C10_unregister_absent_and_idempotent GetBucket 7).1 rfl⟩

/-! ## The claims, continued -/

/-- C13: one wake-up of the running feeder bound to `(identity, rate,
window)`, on any bucket. If the identity is absent from the map, the loop
body returns, the feeder is no longer running, the map is unchanged and the
identity is still absent. If the identity is present, its counter becomes
exactly `rate`, no other key changes and the feeder keeps running. The loop
body returns exactly when the identity is absent. -/
theorem C13_one_tick (b : Bucket) (i : Nat) (fd : Feeder) (hfd : b.feeders[i]? = some fd) :
    (b.Functions fd.fnaddr = none →
        doFeed fd.fnaddr fd.rate b.Functions = (b.Functions, false)
        ∧ tick i b = { Functions := b.Functions, feeders := b.feeders.eraseIdx i }
        ∧ (tick i b).Functions fd.fnaddr = none)
    ∧ (∀ c, b.Functions fd.fnaddr = some c →
        doFeed fd.fnaddr fd.rate b.Functions = (mapSet b.Functions fd.fnaddr fd.rate, true)
        ∧ (tick i b).Functions fd.fnaddr = some fd.rate
        ∧ (∀ x, x ≠ fd.fnaddr → (tick i b).Functions x = b.Functions x)
        ∧ (tick i b).feeders = b.feeders)
    ∧ ((doFeed fd.fnaddr fd.rate b.Functions).2 = false ↔ b.Functions fd.fnaddr = none) := by
  refine ⟨?_, ?_, ?_⟩
  · intro hc
    refine ⟨by simp [doFeed, hc], tick_absent b i fd hfd hc, ?_⟩
    rw [tick_absent b i fd hfd hc]
    exact hc
  · intro c hc
    refine ⟨by simp [doFeed, hc], ?_, ?_, ?_⟩
    · rw [tick_present b i fd c hfd hc]
      exact mapSet_same _ _ _
    · intro x hx
      rw [tick_present b i fd c hfd hc]
      exact mapSet_other _ _ _ _ hx
    · rw [tick_present b i fd c hfd hc]
  · cases hm : b.Functions fd.fnaddr with
    | none => simp [doFeed, hm]
    | some c => simp [doFeed, hm]

/-- C13 on the feeder of identity 7 (rate 10, window 1) with two calls used. -/
theorem C13_one_tick_witness :
    ({ Functions := mapSet GetBucket.Functions 7 8,
       feeders := [{ fnaddr := 7, rate := 10, twindow := 1 }] } : Bucket).feeders[0]?
      = some { fnaddr := 7, rate := 10, twindow := 1 }
    ∧ (tick 0 { Functions := mapSet GetBucket.Functions 7 8,
                feeders := [{ fnaddr := 7, rate := 10, twindow := 1 }] }).Functions 7 = some 10 :=
  ⟨rfl, ((C13_one_tick
    { Functions := mapSet GetBucket.Functions 7 8,
      feeders := [{ fnaddr := 7, rate := 10, twindow := 1 }] }
    0 { fnaddr := 7, rate := 10, twindow := 1 } rfl).2.1 8 rfl).2.1⟩

/-- C16: the sleep of `doFeed` is not the window in seconds for every window
that `RegisterFunction` accepts. The window 9223372037 is a non-zero
`uint64`, registration with it succeeds and dispatches a feeder with that
window, and the sleep computed for it is negative; for the window `2 ^ 55`
the computed sleep is zero. -/
theorem C16_sleep_duration_wraps :
    (9223372037 < UINT64
      ∧ RegisterFunction (Iface.ptr 7) 10 9223372037 GetBucket
          = Outcome.ret none
              { Functions := mapSet GetBucket.Functions 7 10,
                feeders := [{ fnaddr := 7, rate := 10, twindow := 9223372037 }] }
      ∧ sleepDuration 9223372037 = -9223372036709551616
      ∧ sleepDuration 9223372037 ≠ 9223372037 * 1000000000)
    ∧ (36028797018963968 < UINT64 ∧ sleepDuration 36028797018963968 = 0) := by
  refine ⟨⟨by decide, rfl, by decide, by decide⟩, by decide, by decide⟩

/-- C17: `UnregisterFunction(nil)` panics on every bucket, while
`RegisterFunction(nil, ...)` returns the error "invalid function". -/
theorem C17_unregister_nil_panics (b : Bucket) (rate twindow : Nat) :
    UnregisterFunction Iface.nil b = Outcome.panic
    ∧ UnregisterFunction Iface.nil GetBucket = Outcome.panic
    ∧ RegisterFunction Iface.nil rate twindow b = Outcome.ret (some "invalid function") b := by
  refine ⟨rfl, rfl, ?_⟩
  simp [RegisterFunction, errInvalidFunction]

/-- C18: `RegisterFunction` tests nil `fn`, then rate 0, then window 0, then
a duplicate identity, and returns the error of the first test that fails.
A nil `fn` gives "invalid function" whatever the rate and window (also for
`(nil, 0, 0)`); a non-nil `fn` with rate 0 gives "invalid rate" whatever the
window and the map; a non-nil `fn` with a rate above 0 and window 0 gives
"invalid time window" whatever the map; so an identity `f` that is already
registered gets "invalid rate" for `(f, 0, w)` and "invalid time window" for
`(f, r, 0)` with `r > 0`, and "function already registered" only when rate
and window are both above 0. -/
theorem C18_register_check_order (b : Bucket) (fn : Iface) (f c rate twindow : Nat) :
    RegisterFunction Iface.nil rate twindow b = Outcome.ret (some "invalid function") b
    ∧ RegisterFunction Iface.nil 0 0 b = Outcome.ret (some "invalid function") b
    ∧ (fn ≠ Iface.nil →
        RegisterFunction fn 0 twindow b = Outcome.ret (some "invalid rate") b)
    ∧ (fn ≠ Iface.nil → 0 < rate →
        RegisterFunction fn rate 0 b = Outcome.ret (some "invalid time window") b)
    ∧ (b.Functions f = some c →
        RegisterFunction (Iface.ptr f) 0 twindow b = Outcome.ret (some "invalid rate") b
        ∧ (0 < rate → RegisterFunction (Iface.ptr f) rate 0 b
              = Outcome.ret (some "invalid time window") b)
        ∧ (0 < rate → 0 < twindow → RegisterFunction (Iface.ptr f) rate twindow b
              = Outcome.ret (some "function already registered") b)) := by
  refine ⟨?_, ?_, ?_, ?_, ?_⟩
  · simp [RegisterFunction, errInvalidFunction]
  · simp [RegisterFunction, errInvalidFunction]
  · intro hfn
    simp [RegisterFunction, hfn, errInvalidRate]
  · intro hfn hr
    simp [RegisterFunction, hfn, Nat.pos_iff_ne_zero.mp hr, errInvalidTimeWindow]
  · intro hf
    refine ⟨?_, ?_, ?_⟩
    · simp [RegisterFunction, errInvalidRate]
    · intro hr
      simp [RegisterFunction, Nat.pos_iff_ne_zero.mp hr, errInvalidTimeWindow]
    · intro hr hw
      simp [RegisterFunction, Pointer, hf, Nat.pos_iff_ne_zero.mp hr,
        Nat.pos_iff_ne_zero.mp hw, errAlreadyRegistered]

/-- C18 on identity 7 already registered with counter 10. -/
theorem C18_register_check_order_witness :
    (({ Functions := mapSet GetBucket.Functions 7 10,
        feeders := [{ fnaddr := 7, rate := 10, twindow := 1 }] } : Bucket).Functions 7 = some 10
      ∧ 0 < 5)
    ∧ RegisterFunction (Iface.ptr 7) 0 3
          { Functions := mapSet GetBucket.Functions 7 10,
            feeders := [{ fnaddr := 7, rate := 10, twindow := 1 }] }
        = Outcome.ret (some "invalid rate")
          { Functions := mapSet GetBucket.Functions 7 10,
            feeders := [{ fnaddr := 7, rate := 10, twindow := 1 }] }
    ∧ RegisterFunction (Iface.ptr 7) 5 0
          { Functions := mapSet GetBucket.Functions 7 10,
            feeders := [{ fnaddr := 7, rate := 10, twindow := 1 }] }
        = Outcome.ret (some "invalid time window")
          { Functions := mapSet GetBucket.Functions 7 10,
            feeders := [{ fnaddr := 7, rate := 10, twindow := 1 }] } :=
  ⟨⟨rfl, by decide⟩,
   ((C18_register_check_order
      { Functions := mapSet GetBucket.Functions 7 10,
        feeders := [{ fnaddr := 7, rate := 10, twindow := 1 }] }
      (Iface.ptr 7) 7 10 5 3).2.2.2.2 rfl).1,
   ((C18_register_check_order
      { Functions := mapSet GetBucket.Functions 7 10,
        feeders := [{ fnaddr := 7, rate := 10, twindow := 1 }] }
      (Iface.ptr 7) 7 10 5 3).2.2.2.2 rfl).2.1 (by decide)⟩

/-- C19: for two distinct identities `f` and `g`, on every bucket, each of
`RegisterFunction(g, ...)`, `UnregisterFunction(g)`, `IsAbleToCall(g)` (which
all return, with or without an error) and a wake-up of a running feeder
bound to `g` leaves the map entry of `f` as it was: `f` is present after it
exactly when it was before, with the same counter. -/
theorem C19_identities_isolated (b : Bucket) (f g : Nat) (hfg : f ≠ g) :
    (∀ rate twindow, ∃ e b1,
        RegisterFunction (Iface.ptr g) rate twindow b = Outcome.ret e b1
        ∧ b1.Functions f = b.Functions f)
    ∧ (∃ b1, UnregisterFunction (Iface.ptr g) b = Outcome.ret () b1
        ∧ b1.Functions f = b.Functions f)
    ∧ (∃ r b1, IsAbleToCall (Iface.ptr g) b = Outcome.ret r b1
        ∧ b1.Functions f = b.Functions f)
    ∧ (∀ i fd, b.feeders[i]? = some fd → fd.fnaddr = g →
        (tick i b).Functions f = b.Functions f) := by
  refine ⟨?_, ?_, ?_, ?_⟩
  · intro rate twindow
    unfold RegisterFunction
    split
    · exact ⟨_, _, rfl, rfl⟩
    · split
      · exact ⟨_, _, rfl, rfl⟩
      · split
        · exact ⟨_, _, rfl, rfl⟩
        · simp only [Pointer]
          split
          · exact ⟨_, _, rfl, rfl⟩
          · exact ⟨_, _, rfl, mapSet_other _ _ _ _ hfg⟩
  · unfold UnregisterFunction
    simp only [Pointer]
    split
    · exact ⟨_, rfl, rfl⟩
    · refine ⟨_, rfl, ?_⟩
      simp [mapDelete, hfg]
  · unfold IsAbleToCall
    simp only [Pointer]
    split
    · exact ⟨_, _, rfl, rfl⟩
    · split
      · exact ⟨_, _, rfl, rfl⟩
      · exact ⟨_, _, rfl, mapSet_other _ _ _ _ hfg⟩
  · intro i fd hfd hg
    cases hm : b.Functions fd.fnaddr with
    | none => rw [tick_absent b i fd hfd hm]
    | some c =>
      rw [tick_present b i fd c hfd hm, hg]
      exact mapSet_other _ _ _ _ hfg

/-- C19 on identities 7 and 8: registering 8 leaves the counter of 7. -/
theorem C19_identities_isolated_witness :
    (7 : Nat) ≠ 8
    ∧ ∃ e b1, RegisterFunction (Iface.ptr 8) 3 1
          { Functions := mapSet GetBucket.Functions 7 10,
            feeders := [{ fnaddr := 7, rate := 10, twindow := 1 }] }
        = Outcome.ret e b1
      ∧ b1.Functions 7 = mapSet GetBucket.Functions 7 10 7 :=
  ⟨by decide, (C19_identities_isolated
    { Functions := mapSet GetBucket.Functions 7 10,
      feeders := [{ fnaddr := 7, rate := 10, twindow := 1 }] } 7 8 (by decide)).1 3 1⟩

/-- C11: the counter of a registered identity can exceed the rate of its
current registration. Identity 7 is registered with rate 10 and window 1,
unregistered, and registered again with rate 2 and window 100, all three
calls succeeding; its counter is then 2. The feeder of the first
registration, still running, wakes up: the counter of 7 becomes 10, above
the rate 2, and three calls in a row are admitted. -/
theorem C11_stale_feeder_exceeds_rate :
    ∃ b1 b2 b3 b4,
      RegisterFunction (Iface.ptr 7) 10 1 GetBucket = Outcome.ret none b1
      ∧ UnregisterFunction (Iface.ptr 7) b1 = Outcome.ret () b2
      ∧ RegisterFunction (Iface.ptr 7) 2 100 b2 = Outcome.ret none b3
      ∧ b3.Functions 7 = some 2
      ∧ run [Op.register (Iface.ptr 7) 10 1, Op.unregister (Iface.ptr 7),
             Op.register (Iface.ptr 7) 2 100, Op.tick 0] GetBucket = some (tick 0 b3)
      ∧ (tick 0 b3).Functions 7 = some 10
      ∧ ¬ (10 ≤ 2)
      ∧ callsInARow (Iface.ptr 7) 3 (tick 0 b3)
          = Outcome.ret [(true, none), (true, none), (true, none)] b4 := by
  refine ⟨_, _, _, _, rfl, rfl, rfl, rfl, rfl, rfl, by decide, rfl⟩

/-- C12, as stated, fails: after identity 7 is registered, unregistered and
registered again, it is in the map and two running feeders are bound to it. -/
theorem C12_two_feeders_for_one_identity :
    ∃ b, run [Op.register (Iface.ptr 7) 10 1, Op.unregister (Iface.ptr 7),
              Op.register (Iface.ptr 7) 2 100] GetBucket = some b
      ∧ b.Functions 7 = some 2
      ∧ feedersOf 7 b = [{ fnaddr := 7, rate := 10, twindow := 1 },
                         { fnaddr := 7, rate := 2, twindow := 100 }]
      ∧ (feedersOf 7 b).length ≠ 1 := by
  refine ⟨_, rfl, rfl, rfl, by decide⟩

/-- C12, amended: in every bucket reached from a fresh one by a sequence of
`RegisterFunction`, `UnregisterFunction`, `IsAbleToCall` calls and feeder
wake-ups, every identity in the map has at least one running feeder bound
to it; it has exactly one provided that no `RegisterFunction` of that
identity succeeded while a feeder bound to it was still running, and in
particular in every sequence without `UnregisterFunction` of that
identity. -/
theorem C12_present_identity_has_feeder (ops : List Op) (b : Bucket) (f : Nat)
    (hrun : run ops GetBucket = some b) (hf : b.Functions f ≠ none) :
    1 ≤ (feedersOf f b).length
    ∧ (registersFresh f ops GetBucket = true → (feedersOf f b).length = 1)
    ∧ (noUnregister f ops = true → (feedersOf f b).length = 1) := by
  have hge : 1 ≤ (feedersOf f b).length := by
    cases hc : b.Functions f with
    | none => exact absurd hc hf
    | some c =>
      obtain ⟨fd, hmem, hfd, _⟩ := counter_le_some_feeder_rate ops b f c hrun hc
      have hin : fd ∈ feedersOf f b := by
        simp [feedersOf, hmem, hfd]
      exact List.length_pos_of_mem hin
  have hone : registersFresh f ops GetBucket = true → (feedersOf f b).length = 1 := by
    intro hfresh
    have hle := run_keeps_single f ops GetBucket b hrun hfresh (Nat.zero_le 1)
    omega
  exact ⟨hge, hone, fun hno => hone (noUnregister_fresh f ops GetBucket hno (fun _ => rfl))⟩

/-- C12, amended, on identity 7: registered, unregistered, its feeder woken
up (it stops), registered again: one feeder; and registered and used without
any unregistration, next to identity 8: one feeder. -/
theorem C12_present_identity_has_feeder_witness :
    (∃ b, (run [Op.register (Iface.ptr 7) 10 1, Op.unregister (Iface.ptr 7), Op.tick 0,
                Op.register (Iface.ptr 7) 2 100] GetBucket = some b
           ∧ b.Functions 7 ≠ none
           ∧ registersFresh 7 [Op.register (Iface.ptr 7) 10 1, Op.unregister (Iface.ptr 7),
                Op.tick 0, Op.register (Iface.ptr 7) 2 100] GetBucket = true)
        ∧ 1 ≤ (feedersOf 7 b).length ∧ (feedersOf 7 b).length = 1)
    ∧ (∃ b, (run [Op.register (Iface.ptr 7) 10 1, Op.isAbleToCall (Iface.ptr 7),
                  Op.register (Iface.ptr 8) 3 1, Op.unregister (Iface.ptr 8),
                  Op.tick 0] GetBucket = some b
             ∧ b.Functions 7 ≠ none
             ∧ noUnregister 7 [Op.register (Iface.ptr 7) 10 1, Op.isAbleToCall (Iface.ptr 7),
                  Op.register (Iface.ptr 8) 3 1, Op.unregister (Iface.ptr 8),
                  Op.tick 0] = true)
        ∧ (feedersOf 7 b).length = 1) :=
  ⟨⟨_, ⟨rfl, by simp [GetBucket, mapSet, mapDelete, tick, doFeed], rfl⟩,
     (C12_present_identity_has_feeder
        [Op.register (Iface.ptr 7) 10 1, Op.unregister (Iface.ptr 7), Op.tick 0,
         Op.register (Iface.ptr 7) 2 100] _ 7 rfl
        (by simp [GetBucket, mapSet, mapDelete, tick, doFeed])).1,
     (C12_present_identity_has_feeder
        [Op.register (Iface.ptr 7) 10 1, Op.unregister (Iface.ptr 7), Op.tick 0,
         Op.register (Iface.ptr 7) 2 100] _ 7 rfl
        (by simp [GetBucket, mapSet, mapDelete, tick, doFeed])).2.1 rfl⟩,
   ⟨_, ⟨rfl, by simp [GetBucket, mapSet, mapDelete, tick, doFeed, UINT64], rfl⟩,
     (C12_present_identity_has_feeder
        [Op.register (Iface.ptr 7) 10 1, Op.isAbleToCall (Iface.ptr 7),
         Op.register (Iface.ptr 8) 3 1, Op.unregister (Iface.ptr 8), Op.tick 0] _ 7 rfl
        (by simp [GetBucket, mapSet, mapDelete, tick, doFeed, UINT64])).2.2 rfl⟩⟩

/-- C14: a feeder does not always stop at its first wake-up after its
identity was unregistered. Identity 7 is registered with rate 10 and window
1, which dispatches the feeder `P` at index 0, then unregistered, then
registered again with rate 2 and window 100. At the next wake-up of `P` the
loop body does not return: `P` is still running afterwards, and it has set
the counter of 7 to 10. -/
theorem C14_stale_feeder_keeps_running :
    ∃ b1 b2 b3,
      RegisterFunction (Iface.ptr 7) 10 1 GetBucket = Outcome.ret none b1
      ∧ b1.feeders = [{ fnaddr := 7, rate := 10, twindow := 1 }]
      ∧ UnregisterFunction (Iface.ptr 7) b1 = Outcome.ret () b2
      ∧ b2.Functions 7 = none
      ∧ RegisterFunction (Iface.ptr 7) 2 100 b2 = Outcome.ret none b3
      ∧ b3.feeders[0]? = some { fnaddr := 7, rate := 10, twindow := 1 }
      ∧ (doFeed 7 10 b3.Functions).2 = true
      ∧ (tick 0 b3).feeders[0]? = some { fnaddr := 7, rate := 10, twindow := 1 }
      ∧ (tick 0 b3).Functions 7 = some 10 := by
  refine ⟨_, _, _, rfl, rfl, rfl, rfl, rfl, rfl, rfl, rfl, rfl⟩

/-- C15: the `true` results of calls made at the same time can exceed the
capacity of the registration. Identity 7 is registered with rate 10 and
window 1, unregistered, and registered again with capacity 2 and window 100;
the feeder of the first registration wakes up, which is a reset. Three
goroutines then call `IsAbleToCall(7)` at the same time, with no further
reset: all three calls return `true`, one more than the capacity 2. -/
theorem C15_stale_reset_admits_above_capacity :
    ∃ b2 b3,
      run [Op.register (Iface.ptr 7) 10 1, Op.unregister (Iface.ptr 7)] GetBucket = some b2
      ∧ RegisterFunction (Iface.ptr 7) 2 100 b2 = Outcome.ret none b3
      ∧ b3.Functions 7 = some 2
      ∧ run [Op.register (Iface.ptr 7) 10 1, Op.unregister (Iface.ptr 7),
             Op.register (Iface.ptr 7) 2 100, Op.tick 0] GetBucket = some (tick 0 b3)
      ∧ (runSchedule 7 [0, 1, 2, 0, 1, 0, 0, 2, 0, 1, 1, 1, 1, 1, 2, 2, 2, 2, 2]
            { Functions := (tick 0 b3).Functions, locked := false,
              threads := List.replicate 3 Pc.lock }).threads
          = [Pc.done true none, Pc.done true none, Pc.done true none]
      ∧ admitted (runSchedule 7 [0, 1, 2, 0, 1, 0, 0, 2, 0, 1, 1, 1, 1, 1, 2, 2, 2, 2, 2]
            { Functions := (tick 0 b3).Functions, locked := false,
              threads := List.replicate 3 Pc.lock }) = 3
      ∧ ¬ (3 ≤ 2) := by
  refine ⟨_, _, rfl, rfl, rfl, rfl, rfl, rfl, by decide⟩

end Lazybucket
